import Mathlib

/-!
Verification of the emulator instance discovery subsystem
(`aemu.discovery.emulator_discovery`) and the build environment accessor
(`aemu.process.environment`).

The discovery registry implementation itself is not present in the corpus
(only its test suite `tests/test_discover_emulator.py` is), so the discovery
definitions below are modelled from the specification's data model (section 3),
component design (section 4) and external interfaces (section 6).
The environment accessor is translated from
`android/build/python/aemu/process/environment.py`.

String operations are carried out structurally on `String.data` so that all
definitions evaluate by kernel reduction on concrete inputs.
-/

/-- Split a character list at every occurrence of `sep`; the accumulator holds
the current chunk reversed.  Mirrors Python `str.split(sep)`: a trailing
separator yields a trailing empty chunk. -/
def splitSepAux (sep : Char) : List Char → List Char → List (List Char)
  | [], acc => [acc.reverse]
  | c :: cs, acc =>
    if c = sep then acc.reverse :: splitSepAux sep cs []
    else splitSepAux sep cs (c :: acc)

/-- Split a string at every occurrence of the character `sep`. -/
def splitSep (sep : Char) (s : String) : List String :=
  (splitSepAux sep s.data []).map List.asString

/-- Split a character list at the first `=`, as Python `line.split("=", 1)`:
the key is everything before the first `=`, the value everything after it.
A list with no `=` yields nothing. -/
def breakEq : List Char → Option (List Char × List Char)
  | [] => none
  | c :: cs =>
    if c = '=' then some ([], cs)
    else (breakEq cs).map (fun p => (c :: p.1, p.2))

/-- Strict base-10 parse of a string into a natural number: non-empty, all
characters decimal digits (the semantics of `String.toNat?`). -/
def strToNat (s : String) : Option Nat :=
  if !s.data.isEmpty && s.data.all Char.isDigit then
    some (s.data.foldl (fun n c => n * 10 + (c.toNat - 48)) 0)
  else none

/-- Modelled from the spec: a descriptor file as found in a discovery
directory.  `name` is the file name (the naming convention is
`pid_<processID>.ini`), `content` is the raw text content, a sequence of
newline separated `key=value` lines. -/
structure DescFile where
  name : String
  content : String
deriving Repr, DecidableEq

/-- Modelled from the spec: turn one line of a descriptor file into a
`key=value` pair; a line with no `=` contributes nothing. -/
def parseLine (l : String) : Option (String × String) :=
  (breakEq l.data).map (fun p => (p.1.asString, p.2.asString))

/-- Modelled from the spec: the key/value pairs of a descriptor file's
content, obtained by splitting it into lines and parsing each line. -/
def parseKVs (content : String) : List (String × String) :=
  (splitSep '\n' content).filterMap parseLine

/-- First value bound to key `k` in the parsed key/value pairs. -/
def lookupKey (kvs : List (String × String)) (k : String) : Option String :=
  (kvs.find? (fun p => p.1 == k)).map (fun p => p.2)

/-- Modelled from the spec: the process identifier associated with a record is
extracted from the descriptor file's own name, which must follow the fixed
naming convention `pid_<N>.ini`; `N` must be a base-10 natural number. -/
def pidOfFileName (n : String) : Option Nat :=
  if "pid_".data.isPrefixOf n.data && ".ini".data.isSuffixOf n.data then
    strToNat ((n.data.drop 4).take (n.data.length - 8)).asString
  else none

/-- Modelled from the spec: the Descriptor Record, the parsed contents of one
discovery file plus the process identifier derived from the file name and the
source file path retained for later deletion. -/
structure DescriptorRecord where
  pid : Nat
  serialPort : Nat
  adbPort : Nat
  grpcPort : Option Nat
  avdName : String
  avdDir : String
  avdId : String
  sourceFile : String
deriving Repr, DecidableEq

/-- Modelled from the spec: the optional `grpc.port` key.  Absence is fine
(`some none`); a present but non-numeric value makes the record malformed
(`none`), since `grpc.port` is a numeric field. -/
def parseGrpc (kvs : List (String × String)) : Option (Option Nat) :=
  match lookupKey kvs "grpc.port" with
  | none => some none
  | some v => (strToNat v).map some

/-- Modelled from the spec: the Descriptor Parser.  Given a descriptor file's
name and raw content, produce either a Descriptor Record or a malformed
result (`none`).  Required keys are `port.serial`, `port.adb`, `avd.name`,
`avd.dir`, `avd.id`; numeric fields must parse as base-10 integers; unknown
keys are ignored; `grpc.port` is optional. -/
def parseDescriptor (fileName content : String) : Option DescriptorRecord := do
  let pid ← pidOfFileName fileName
  let kvs := parseKVs content
  let serial ← lookupKey kvs "port.serial" >>= strToNat
  let adb ← lookupKey kvs "port.adb" >>= strToNat
  let aname ← lookupKey kvs "avd.name"
  let adir ← lookupKey kvs "avd.dir"
  let aid ← lookupKey kvs "avd.id"
  let grpc ← parseGrpc kvs
  pure ⟨pid, serial, adb, grpc, aname, adir, aid, fileName⟩

/-- Modelled from the spec: the Liveness Checker.  The process-existence
primitive `pidExists` and the optional richer corroboration `handshake` are
capabilities (function parameters), so tests can substitute fakes.  The
verdict is the short-circuit conjunction: when the process does not exist,
liveness is false with no further work. -/
def is_alive (pidExists : Nat → Bool) (handshake : DescriptorRecord → Bool)
    (r : DescriptorRecord) : Bool :=
  pidExists r.pid && handshake r

/-- Modelled from the spec: the Emulator Handle, a value object with two
construction paths: `discovered` from a Descriptor Record, `manual` from a
raw `host:port` endpoint string.  Equality is structural. -/
inductive EmulatorDescription where
  | discovered (r : DescriptorRecord)
  | manual (endpoint : String)
deriving Repr, DecidableEq

/-- Modelled from the spec: name derivation `emulator-<serial-port>` for
discovered handles; a manual handle is known only by its endpoint. -/
def EmulatorDescription.name : EmulatorDescription → String
  | .discovered r => "emulator-" ++ Nat.repr r.serialPort
  | .manual endpoint => endpoint

/-- Modelled from the spec: one configured discovery path: either a real
directory holding files, or a path that does not exist or is a
non-directory. -/
inductive FsEntry where
  | dir (files : List DescFile)
  | nondir
deriving Repr, DecidableEq

/-- The files of a configured discovery path (a non-directory holds none). -/
def dirFiles : FsEntry → List DescFile
  | .dir files => files
  | .nondir => []

/-- Modelled from the spec: the scan's treatment of one directory entry.
Returns the Descriptor Record retained for the live set (if any) and whether
the backing file is kept on disk.  Malformed content: skip, delete nothing.
Parsed and dead: delete the backing file, retain nothing.  Parsed and alive:
retain a record, keep the file.  A file whose name does not match the
`pid_<N>.ini` convention is never listed by step 1 of the scan, which
coincides with parsing failure here: it is kept and contributes nothing. -/
def scanFile (pe : Nat → Bool) (hs : DescriptorRecord → Bool) (f : DescFile) :
    Option DescriptorRecord × Bool :=
  match parseDescriptor f.name f.content with
  | none => (none, true)
  | some r => if is_alive pe hs r then (some r, true) else (none, false)

/-- Modelled from the spec: scan one configured discovery path, producing the
records retained from it and its state after the scan's deletions.  A path
that does not exist or is a non-directory contributes zero entries rather
than raising. -/
def scanDir (pe : Nat → Bool) (hs : DescriptorRecord → Bool) :
    FsEntry → List DescriptorRecord × FsEntry
  | .nondir => ([], .nondir)
  | .dir files =>
    (files.filterMap (fun f => (scanFile pe hs f).1),
     .dir (files.filter (fun f => (scanFile pe hs f).2)))

/-- Modelled from the spec: the full scan executed by every query: every
configured discovery directory is visited, the retained records are gathered
in order, and the filesystem reflects the deletions of dead descriptors. -/
def scanAll (pe : Nat → Bool) (hs : DescriptorRecord → Bool)
    (fs : List FsEntry) : List DescriptorRecord × List FsEntry :=
  ((fs.map (fun e => (scanDir pe hs e).1)).flatten,
   fs.map (fun e => (scanDir pe hs e).2))

/-- Modelled from the spec: the Discovery Registry; its handle set is
replaced by exactly the records retained by the latest scan. -/
structure EmulatorDiscovery where
  emulators : List DescriptorRecord
deriving Repr, DecidableEq

/-- Modelled from the spec: construct the registry by a fresh scan; returns
the registry and the filesystem after the scan's deletions. -/
def discover (pe : Nat → Bool) (hs : DescriptorRecord → Bool)
    (fs : List FsEntry) : EmulatorDiscovery × List FsEntry :=
  let scanned := scanAll pe hs fs
  (⟨scanned.1⟩, scanned.2)

/-- Modelled from the spec: `available()`, the count of currently live,
parseable emulators across all configured discovery directories; triggers a
full rescan, so it also returns the filesystem after the scan. -/
def available (pe : Nat → Bool) (hs : DescriptorRecord → Bool)
    (fs : List FsEntry) : Nat × List FsEntry :=
  let d := discover pe hs fs
  (d.1.emulators.length, d.2)

/-- Modelled from the spec: the identifier argument of `find_by_pid`, which
accepts either the natural numeric form or a string representation. -/
inductive PidArg where
  | num (n : Nat)
  | str (s : String)
deriving Repr, DecidableEq

/-- Modelled from the spec: normalization of the identifier at the API
boundary to one canonical numeric form. -/
def normalizePid : PidArg → Option Nat
  | .num n => some n
  | .str s => strToNat s

/-- Modelled from the spec: `find_by_pid(identifier)`: rescan, normalize the
identifier, and return the Emulator Handle for that process identifier or an
explicit not-found result (`none`), never an exception. -/
def find_by_pid (pe : Nat → Bool) (hs : DescriptorRecord → Bool)
    (fs : List FsEntry) (arg : PidArg) :
    Option EmulatorDescription × List FsEntry :=
  let d := discover pe hs fs
  (match normalizePid arg with
   | none => none
   | some p =>
     (d.1.emulators.find? (fun r => r.pid == p)).map EmulatorDescription.discovered,
   d.2)

/-- Modelled from the spec: `connection(endpoint)` builds a manual Emulator
Handle directly from a `host:port` string, independent of the discovery
directories (it takes no filesystem and performs no scan). -/
def connection (endpoint : String) : EmulatorDescription :=
  .manual endpoint

/-- Modelled from the spec: the Default Selector `get_default_emulator()`:
one Emulator Handle chosen from the current live set, or an explicit
none-available result when the set is empty; the model chooses the first
record of the scan, a stable deterministic rule. -/
def get_default_emulator (pe : Nat → Bool) (hs : DescriptorRecord → Bool)
    (fs : List FsEntry) : Option EmulatorDescription × List FsEntry :=
  let d := discover pe hs fs
  ((d.1.emulators.head?).map EmulatorDescription.discovered, d.2)

/-- The environment dictionary of `aemu/process/environment.py`, reduced to
its observable key/value pairs. -/
structure Environment where
  vars : List (String × String)
deriving Repr, DecidableEq

/-- From `environment.py`: `BaseEnvironment.__init__` sets `PATH` to the
depot_tools directory under `aosp` followed by the pre-existing `PATH`
(joined by the platform path separator, both supplied by the caller's
platform). -/
def BaseEnvironment (pathSep osPath aosp : String) : Environment :=
  ⟨[("PATH",
     aosp ++ "/external/qemu/android/third_party/chromium/depot_tools"
       ++ pathSep ++ osPath)]⟩

/-- From `environment.py`: `PosixEnvironment` adds nothing over
`BaseEnvironment`. -/
def PosixEnvironment (pathSep osPath aosp : String) : Environment :=
  BaseEnvironment pathSep osPath aosp

/-- From `environment.py`: `get_default_environment(aosp,
visual_studio_version)`.  The global `ENVIRONMENT` (starting as `None`) is
threaded explicitly as `env0`.  When it is unset, a `WindowsEnvironment` is
built on Windows (its subprocess-driven construction is the external
capability `mkWindowsEnv`) and a `PosixEnvironment` otherwise, and stored;
when it is set, the stored object is returned unchanged regardless of the
arguments.  Returns the result together with the new global state. -/
def get_default_environment (isWindows : Bool)
    (mkWindowsEnv : String → String → Environment) (pathSep osPath : String)
    (env0 : Option Environment) (aosp visual_studio_version : String) :
    Environment × Option Environment :=
  match env0 with
  | some e => (e, some e)
  | none =>
    let e :=
      if isWindows then mkWindowsEnv aosp visual_studio_version
      else PosixEnvironment pathSep osPath aosp
    (e, some e)

/-- The descriptor file the test fixture `fake_emu_pid_file(0)` writes:
process 1230, serial port 5554. -/
def file1230 : DescFile :=
  ⟨"pid_1230.ini",
   "port.serial=5554\nport.adb=5555\navd.name=Q\navd.dir=/home/.android/avd/Q.avd\navd.id=Q\ncmdline=unused\ngrpc.port=8554\n"⟩

/-- The descriptor file the test fixture `fake_emu_pid_file(1)` writes:
process 1231, serial port 5556. -/
def file1231 : DescFile :=
  ⟨"pid_1231.ini",
   "port.serial=5556\nport.adb=5557\navd.name=Q\navd.dir=/home/.android/avd/Q.avd\navd.id=Q\ncmdline=unused\ngrpc.port=8556\n"⟩

/-- The malformed descriptor file of the test fixture `bad_emu_pid_file`. -/
def badFile : DescFile := ⟨"pid_1234.ini", "bad_new_bears\n"⟩

/-- The Descriptor Record parsed from `file1230`. -/
def rec1230 : DescriptorRecord :=
  ⟨1230, 5554, 5555, some 8554, "Q", "/home/.android/avd/Q.avd", "Q", "pid_1230.ini"⟩

/-- The Descriptor Record parsed from `file1231`. -/
def rec1231 : DescriptorRecord :=
  ⟨1231, 5556, 5557, some 8556, "Q", "/home/.android/avd/Q.avd", "Q", "pid_1231.ini"⟩

/-! Decimal round trip: the canonical decimal string of a natural number
normalizes back to that number.  These lemmas characterize the core
`Nat.toDigitsCore` producer against the `strToNat` consumer. -/

theorem toDigitsCore_shift (b f n : Nat) (ds : List Char) :
    Nat.toDigitsCore b f n ds = Nat.toDigitsCore b f n [] ++ ds := by
  induction f generalizing n ds with
  | zero => simp [Nat.toDigitsCore]
  | succ f ih =>
    simp only [Nat.toDigitsCore]
    by_cases h : n / b = 0
    · simp [h]
    · simp only [h, if_false]
      rw [ih (n / b) (Nat.digitChar (n % b) :: ds), ih (n / b) [Nat.digitChar (n % b)]]
      simp

theorem digitChar_isDigit (n : Nat) (h : n < 10) :
    (Nat.digitChar n).isDigit = true := by
  interval_cases n <;> decide

theorem digitChar_toNat (n : Nat) (h : n < 10) :
    (Nat.digitChar n).toNat - 48 = n := by
  interval_cases n <;> decide

theorem toDigitsCore_digits (f n : Nat) (h : n < f) :
    ∀ c ∈ Nat.toDigitsCore 10 f n [], c.isDigit = true := by
  induction f generalizing n with
  | zero => omega
  | succ f ih =>
    have hmod : n % 10 < 10 := Nat.mod_lt n (by norm_num)
    simp only [Nat.toDigitsCore]
    by_cases h0 : n / 10 = 0
    · simp only [h0, if_true]
      intro c hc
      rw [List.mem_singleton.mp hc]
      exact digitChar_isDigit (n % 10) hmod
    · simp only [h0, if_false]
      rw [toDigitsCore_shift]
      intro c hc
      have hge : 10 ≤ n := by
        by_contra hlt
        exact h0 (Nat.div_eq_of_lt (by omega))
      have hdiv : n / 10 < n := Nat.div_lt_self (by omega) (by norm_num)
      rcases List.mem_append.mp hc with h1 | h1
      · exact ih (n / 10) (by omega) c h1
      · rw [List.mem_singleton.mp h1]
        exact digitChar_isDigit (n % 10) hmod

theorem toDigitsCore_decode (f n : Nat) (h : n < f) :
    (Nat.toDigitsCore 10 f n []).foldl (fun m c => m * 10 + (c.toNat - 48)) 0
      = n := by
  induction f generalizing n with
  | zero => omega
  | succ f ih =>
    have hmod : n % 10 < 10 := Nat.mod_lt n (by norm_num)
    simp only [Nat.toDigitsCore]
    by_cases h0 : n / 10 = 0
    · have h10 : n < 10 := by
        have := Nat.div_add_mod n 10
        omega
      simp only [h0, if_true, List.foldl_cons, List.foldl_nil]
      rw [digitChar_toNat (n % 10) hmod]
      omega
    · simp only [h0, if_false]
      have hge : 10 ≤ n := by
        by_contra hlt
        exact h0 (Nat.div_eq_of_lt (by omega))
      have hdiv : n / 10 < n := Nat.div_lt_self (by omega) (by norm_num)
      rw [toDigitsCore_shift, List.foldl_append, ih (n / 10) (by omega)]
      simp only [List.foldl_cons, List.foldl_nil]
      rw [digitChar_toNat (n % 10) hmod]
      have := Nat.div_add_mod n 10
      omega

theorem toDigits_ne_nil (n : Nat) : Nat.toDigits 10 n ≠ [] := by
  unfold Nat.toDigits
  simp only [Nat.toDigitsCore]
  by_cases h0 : n / 10 = 0
  · simp [h0]
  · simp only [h0, if_false]
    rw [toDigitsCore_shift]
    simp

theorem strToNat_repr (n : Nat) : strToNat (Nat.repr n) = some n := by
  unfold strToNat
  have hdata : (Nat.repr n).data = Nat.toDigits 10 n := rfl
  rw [hdata]
  have h1 : (Nat.toDigits 10 n).isEmpty = false := by
    cases hl : Nat.toDigits 10 n with
    | nil => exact absurd hl (toDigits_ne_nil n)
    | cons c cs => rfl
  have h2 : (Nat.toDigits 10 n).all Char.isDigit = true := by
    rw [List.all_eq_true]
    exact fun c hc => toDigitsCore_digits (n + 1) n (Nat.lt_succ_self n) c hc
  rw [h1, h2]
  simp only [Bool.not_false, Bool.and_self, if_true]
  exact congrArg some (toDigitsCore_decode (n + 1) n (Nat.lt_succ_self n))

/-! Helper lemmas about the scan. -/

/-- A file whose name does not follow the descriptor naming convention never
parses. -/
theorem parseDescriptor_none_of_badName (fn c : String)
    (h : pidOfFileName fn = none) : parseDescriptor fn c = none := by
  simp [parseDescriptor, h]

/-- In a list of records with pairwise distinct process identifiers, the
registry's linear search finds exactly the member with the sought
identifier. -/
theorem find_record_of_nodup (l : List DescriptorRecord) (r : DescriptorRecord)
    (hnd : (l.map DescriptorRecord.pid).Nodup) (hmem : r ∈ l) :
    l.find? (fun x => x.pid == r.pid) = some r := by
  induction l with
  | nil => cases hmem
  | cons a t ih =>
    rw [List.map_cons, List.nodup_cons] at hnd
    rcases List.mem_cons.mp hmem with rfl | hmem2
    · exact List.find?_cons_of_pos _ (by simp)
    · have hne : (a.pid == r.pid) = false := by
        rw [beq_eq_false_iff_ne]
        intro he
        apply hnd.1
        rw [he]
        exact List.mem_map_of_mem _ hmem2
      rw [List.find?_cons_of_neg _ (by simp [hne])]
      exact ih hnd.2 hmem2

/-- When every file of a directory entry scans to a retained record, the scan
retains exactly as many records as there are files. -/
theorem scanDir_count (pe : Nat → Bool) (hs : DescriptorRecord → Bool)
    (e : FsEntry)
    (hlive : ∀ f ∈ dirFiles e, ((scanFile pe hs f).1).isSome = true) :
    (scanDir pe hs e).1.length = (dirFiles e).length := by
  cases e with
  | nondir => rfl
  | dir files =>
    simp only [dirFiles] at hlive
    simp only [scanDir, dirFiles]
    induction files with
    | nil => rfl
    | cons f t ih =>
      cases hf : (scanFile pe hs f).1 with
      | none =>
        have hsome := hlive f (List.mem_cons_self f t)
        rw [hf] at hsome
        cases hsome
      | some r =>
        simp only [List.filterMap_cons, hf, List.length_cons]
        rw [ih (fun g hg => hlive g (List.mem_cons_of_mem f hg))]

/-- C1: for a discovery directory containing exactly one descriptor file that
parses successfully but whose referenced process is not alive, `available()`
returns 0 and, after the call returns, the backing descriptor file no longer
exists on disk. -/
theorem available_dead_pid_cleans (pe : Nat → Bool)
    (hs : DescriptorRecord → Bool) (f : DescFile) (r : DescriptorRecord)
    (hparse : parseDescriptor f.name f.content = some r)
    (hdead : pe r.pid = false) :
    available pe hs [FsEntry.dir [f]] = (0, [FsEntry.dir []]) := by
  simp [available, discover, scanAll, scanDir, scanFile, hparse, is_alive, hdead]

/-- Witness for C1: the dead-process fixture `pid_1231.ini` is counted as no
emulator and deleted. -/
theorem available_dead_pid_cleans_witness :
    available (fun _ => false) (fun _ => true) [FsEntry.dir [file1231]]
      = (0, [FsEntry.dir []]) :=
  available_dead_pid_cleans (fun _ => false) (fun _ => true) file1231 rec1231
    (by decide) rfl

/-- C2: for a descriptor file whose content is malformed, `available()`
returns 0 counting that file, and the file is not deleted: the scan leaves
the file (its name and bytes) on disk unchanged. -/
theorem available_malformed_keeps_file (pe : Nat → Bool)
    (hs : DescriptorRecord → Bool) (f : DescFile) (p : Nat)
    (_hname : pidOfFileName f.name = some p)
    (hbad : parseDescriptor f.name f.content = none) :
    available pe hs [FsEntry.dir [f]] = (0, [FsEntry.dir [f]]) := by
  simp [available, discover, scanAll, scanDir, scanFile, hbad]

/-- Witness for C2: the malformed fixture `pid_1234.ini` with content
`bad_new_bears` is counted as no emulator and left on disk. -/
theorem available_malformed_keeps_file_witness :
    available (fun _ => true) (fun _ => true) [FsEntry.dir [badFile]]
      = (0, [FsEntry.dir [badFile]]) :=
  available_malformed_keeps_file (fun _ => true) (fun _ => true) badFile 1234
    (by decide) (by decide)

/-- C4: `connection(s)` called twice with the identical `host:port` string
produces two manual handles that compare equal; the handle is built directly
from the endpoint (the construction takes no discovery directories, hence
requires no scan). -/
theorem connection_equal_handles (s : String)
    (_hform : (splitSep ':' s).length = 2) :
    connection s = connection s ∧
    connection s = EmulatorDescription.manual s :=
  ⟨rfl, rfl⟩

/-- Witness for C4 at the endpoint `localhost:8444`. -/
theorem connection_equal_handles_witness :
    connection "localhost:8444" = connection "localhost:8444" ∧
    connection "localhost:8444" = EmulatorDescription.manual "localhost:8444" :=
  connection_equal_handles "localhost:8444" (by decide)

/-- C8: when the process-existence primitive reports that the record's
process identifier does not exist, the Liveness Checker returns false, and
the verdict is independent of the optional control-channel handshake (the
handshake is never consulted); the checker is a pure observation with no
side effect in either outcome. -/
theorem liveness_short_circuit (pe : Nat → Bool) (r : DescriptorRecord)
    (hdead : pe r.pid = false) :
    ∀ hs hs2 : DescriptorRecord → Bool,
      is_alive pe hs r = false ∧ is_alive pe hs r = is_alive pe hs2 r := by
  intro hs hs2
  simp [is_alive, hdead]

/-- Witness for C8: a dead process yields a false verdict even under an
always-succeeding handshake. -/
theorem liveness_short_circuit_witness :
    is_alive (fun _ => false) (fun _ => true) rec1231 = false :=
  (liveness_short_circuit (fun _ => false) rec1231 rfl (fun _ => true)
    (fun _ => false)).1

/-- C10: `get_default_environment` is a process-wide once-only accessor: the
first call stores the environment it builds, and the second and all later
calls return that exact stored environment unchanged, regardless of their
`aosp` and `visual_studio_version` arguments. -/
theorem get_default_environment_once (iw : Bool)
    (mkWin : String → String → Environment) (psep osp : String)
    (a1 v1 a2 v2 : String) :
    (get_default_environment iw mkWin psep osp
        (get_default_environment iw mkWin psep osp none a1 v1).2 a2 v2)
      = ((get_default_environment iw mkWin psep osp none a1 v1).1,
         (get_default_environment iw mkWin psep osp none a1 v1).2) ∧
    ∀ (e : Environment) (a v : String),
      get_default_environment iw mkWin psep osp (some e) a v = (e, some e) :=
  ⟨rfl, fun _ _ _ => rfl⟩

/-- C3: for N distinct live descriptor files with pairwise distinct process
identifiers across the configured discovery directories, `available()`
returns N (the total file count), and `find_by_pid` applied to each record's
process identifier returns the handle for that record, whose `name()` is
`emulator-` followed by the record's serial port. -/
theorem available_counts_and_finds_live (pe : Nat → Bool)
    (hs : DescriptorRecord → Bool) (fs : List FsEntry)
    (hlive : ∀ e ∈ fs, ∀ f ∈ dirFiles e, ((scanFile pe hs f).1).isSome = true)
    (hdist : ((scanAll pe hs fs).1.map DescriptorRecord.pid).Nodup) :
    (available pe hs fs).1 = (fs.map (fun e => (dirFiles e).length)).sum ∧
    ∀ r ∈ (scanAll pe hs fs).1,
      (find_by_pid pe hs fs (PidArg.num r.pid)).1
        = some (EmulatorDescription.discovered r) ∧
      EmulatorDescription.name (EmulatorDescription.discovered r)
        = "emulator-" ++ Nat.repr r.serialPort := by
  constructor
  · simp only [available, discover, scanAll, List.length_flatten, List.map_map]
    congr 1
    apply List.map_congr_left
    intro e he
    exact scanDir_count pe hs e (hlive e he)
  · intro r hr
    refine ⟨?_, rfl⟩
    simp only [find_by_pid, discover, normalizePid]
    rw [find_record_of_nodup _ r hdist hr]
    rfl

/-- Witness for C3: two live descriptor files, processes 1230 (serial 5554)
and 1231 (serial 5556): `available()` is 2 and `find_by_pid(1231)` names
`emulator-5556`. -/
theorem available_counts_and_finds_live_witness :
    (available (fun _ => true) (fun _ => true)
      [FsEntry.dir [file1230, file1231]]).1 = 2 ∧
    (find_by_pid (fun _ => true) (fun _ => true)
        [FsEntry.dir [file1230, file1231]] (PidArg.num 1231)).1
      = some (EmulatorDescription.discovered rec1231) := by
  have h := available_counts_and_finds_live (fun _ => true) (fun _ => true)
    [FsEntry.dir [file1230, file1231]] (by decide) (by decide)
  refine ⟨h.1.trans (by decide), ?_⟩
  exact (h.2 rec1231 (by decide)).1

/-- C5: for a live discovered emulator with process identifier `p`,
`find_by_pid` applied to the numeric form and to the decimal string
representation of `p` return the same result: the identifier is normalized
internally. -/
theorem find_by_pid_normalizes (pe : Nat → Bool) (hs : DescriptorRecord → Bool)
    (fs : List FsEntry) (p : Nat)
    (_hlive : ∃ r ∈ (scanAll pe hs fs).1, r.pid = p) :
    find_by_pid pe hs fs (PidArg.num p)
      = find_by_pid pe hs fs (PidArg.str (Nat.repr p)) := by
  simp only [find_by_pid, normalizePid, strToNat_repr]

/-- Witness for C5: process 1230, alive, looked up as `1230` and as the
string `"1230"`. -/
theorem find_by_pid_normalizes_witness :
    find_by_pid (fun _ => true) (fun _ => true) [FsEntry.dir [file1230]]
        (PidArg.num 1230)
      = find_by_pid (fun _ => true) (fun _ => true) [FsEntry.dir [file1230]]
        (PidArg.str (Nat.repr 1230)) :=
  find_by_pid_normalizes (fun _ => true) (fun _ => true)
    [FsEntry.dir [file1230]] 1230 (by decide)

/-- C6: when all configured discovery directories contain zero descriptor
files (no file matching the `pid_<N>.ini` naming convention), `available()`
returns 0. -/
theorem available_zero_of_no_descriptors (pe : Nat → Bool)
    (hs : DescriptorRecord → Bool) (fs : List FsEntry)
    (hempty : ∀ e ∈ fs, ∀ f ∈ dirFiles e, pidOfFileName f.name = none) :
    (available pe hs fs).1 = 0 := by
  simp only [available, discover, scanAll, List.length_flatten, List.map_map]
  apply List.sum_eq_zero
  intro x hx
  rcases List.mem_map.mp hx with ⟨e, he, rfl⟩
  cases e with
  | nondir => rfl
  | dir files =>
    simp only [Function.comp_apply, scanDir, List.length_eq_zero]
    rw [List.filterMap_eq_nil_iff]
    intro f hf
    have hn := hempty _ he f hf
    simp [scanFile, parseDescriptor_none_of_badName _ _ hn]

/-- Witness for C6: an empty directory and a directory holding only a
non-descriptor file yield an available count of 0. -/
theorem available_zero_of_no_descriptors_witness :
    (available (fun _ => true) (fun _ => true)
      [FsEntry.dir [], FsEntry.dir [⟨"README", "hello"⟩]]).1 = 0 :=
  available_zero_of_no_descriptors (fun _ => true) (fun _ => true)
    [FsEntry.dir [], FsEntry.dir [⟨"README", "hello"⟩]] (by decide)

/-- C7: a configured discovery path that does not exist or is a
non-directory contributes zero entries and does not disturb the scan: the
retained records and the available count are the same as without it, the
other directories are still scanned in order, and every query returns a
normal result. -/
theorem scan_tolerates_nondir (pe : Nat → Bool) (hs : DescriptorRecord → Bool)
    (l1 l2 : List FsEntry) :
    scanDir pe hs FsEntry.nondir = ([], FsEntry.nondir) ∧
    (scanAll pe hs (l1 ++ FsEntry.nondir :: l2)).1
      = (scanAll pe hs (l1 ++ l2)).1 ∧
    (available pe hs (l1 ++ FsEntry.nondir :: l2)).1
      = (available pe hs (l1 ++ l2)).1 ∧
    (scanAll pe hs (l1 ++ FsEntry.nondir :: l2)).2
      = (scanAll pe hs l1).2 ++ FsEntry.nondir :: (scanAll pe hs l2).2 := by
  refine ⟨rfl, ?_, ?_, ?_⟩
  · simp [scanAll, scanDir]
  · simp [available, discover, scanAll, scanDir]
  · simp [scanAll, scanDir]

/-- C9: `get_default_emulator()` returns a handle chosen from the live set
when it is non-empty (the head of the scan) and an explicit none-available
result when it is empty; with a single live emulator whose serial port is
5554 the returned handle's name is `emulator-5554`. -/
theorem get_default_emulator_contract (pe : Nat → Bool)
    (hs : DescriptorRecord → Bool) (fs : List FsEntry) :
    ((scanAll pe hs fs).1 = [] → (get_default_emulator pe hs fs).1 = none) ∧
    (∀ r rs, (scanAll pe hs fs).1 = r :: rs →
      (get_default_emulator pe hs fs).1
        = some (EmulatorDescription.discovered r) ∧
      r ∈ (scanAll pe hs fs).1) ∧
    (∀ r, (scanAll pe hs fs).1 = [r] → r.serialPort = 5554 →
      ((get_default_emulator pe hs fs).1.map EmulatorDescription.name)
        = some "emulator-5554") := by
  refine ⟨?_, ?_, ?_⟩
  · intro h
    simp [get_default_emulator, discover, h]
  · intro r rs h
    simp [get_default_emulator, discover, h]
  · intro r h hserial
    have h1 : (get_default_emulator pe hs fs).1
        = some (EmulatorDescription.discovered r) := by
      simp [get_default_emulator, discover, h]
    rw [h1]
    show some (EmulatorDescription.name (EmulatorDescription.discovered r))
      = some "emulator-5554"
    rw [show EmulatorDescription.name (EmulatorDescription.discovered r)
        = "emulator-" ++ Nat.repr r.serialPort from rfl, hserial]
    decide

/-- Witness for C9: the single-candidate scenario with serial port 5554. -/
theorem get_default_emulator_contract_witness :
    ((get_default_emulator (fun _ => true) (fun _ => true)
      [FsEntry.dir [file1230]]).1.map EmulatorDescription.name)
      = some "emulator-5554" :=
  (get_default_emulator_contract (fun _ => true) (fun _ => true)
    [FsEntry.dir [file1230]]).2.2 rec1230 (by decide) rfl

